import Mathlib

/-!
Verification of `scripts/plan_issues.py`: a shallow embedding of the
issue-planning orchestrator (rate-limit reset computation, throttling, the
per-issue processing state machine, the generator retry loop, and the
sequential and parallel orchestrators), with theorems settling the
specification claims.

Modelling conventions:
* Python strings are Lean `String`s; `len` on a Python `str` counts code
  points and is embedded as `pyLen` (the length of `String.data`).
* Python exceptions are `Except String` values carrying the message.
* Wall-clock instants are integers in microseconds since the Unix epoch;
  time zones are modelled as fixed UTC offsets in seconds.
* Side effects of one issue's processing are recorded as an explicit
  `Effect` trace.
-/

namespace PlanIssues

/-- Maximum number of generator attempts (`MAX_RETRIES = 3`). -/
def MAX_RETRIES : Nat := 3

/-- Maximum issue body size accepted by validation (`MAX_BODY_SIZE`). -/
def MAX_BODY_SIZE : Nat := 1048576

/-- Maximum title length before truncation (`MAX_TITLE_LENGTH`). -/
def MAX_TITLE_LENGTH : Nat := 500

/-- Marker heading identifying an already-posted plan comment. -/
def PLAN_MARKER : String := "## Detailed Implementation Plan"

/-- Substring signalling that a previous attempt hit a rate limit. -/
def LIMIT_NOTICE : String := "Limit reached"

/-- Substring identifying a structured CLI error envelope in generator output
(the Python code tests `'"type":"result","subtype":"error"' in combined`). -/
def JSON_ERROR_PAT : String := "\"type\":\"result\",\"subtype\":\"error\""

/-- Python `len` on a string: the number of code points. -/
def pyLen (s : String) : Nat := s.data.length

/-- Membership of `pat` as a contiguous sublist of `s`, mirroring
Python's `pat in s` on strings. -/
def listContainsSub : List Char → List Char → Bool
  | [], pat => pat.isEmpty
  | s@(_ :: t), pat => pat.isPrefixOf s || listContainsSub t pat

/-- Python `pat in s` for strings. -/
def strContains (s pat : String) : Bool := listContainsSub s.data pat.data

/-- Python ASCII whitespace test used by `str.strip()` (the plans handled
here are ASCII; wider Unicode stripping never changes emptiness for them). -/
def pyIsSpace (c : Char) : Bool :=
  c = ' ' || c = '\t' || c = '\n' || c = '\x0b' || c = '\x0c' || c = '\r'

/-- Python `s.strip()`. -/
def pyStrip (s : String) : String :=
  String.mk (((s.data.dropWhile pyIsSpace).reverse.dropWhile pyIsSpace).reverse)

/-- Immutable run configuration (`Options` dataclass). -/
structure Options where
  auto : Bool
  replan : Bool
  replan_reason : Option String
  dry_run : Bool
  cleanup : Bool
  parallel : Bool
  max_parallel : Nat
  timeout : Nat
  throttle_seconds : ℚ
  json_output : Bool
deriving DecidableEq

/-- Per-issue outcome record (`Result` dataclass). -/
structure Result where
  issue : Nat
  status : String
  error : Option String := none
deriving DecidableEq

/-- Data returned by `gh issue view --json title,body,comments`; `none`
models a JSON `null` field. -/
structure IssueData where
  title : Option String
  body : Option String
  comments : List String
deriving DecidableEq

/-- Behaviour of the external collaborators for one issue: the tracker fetch,
the plan generator (`generate_plan`, abstracted as a function of the validated
title and body), the interactive editor round-trip, and whether the
`gh issue comment` call exits successfully. -/
structure Env where
  issue : Nat
  fetch : Except String IssueData
  generate : String → String → Except String String
  review : String → Except String String
  postOk : Bool

/-- Observable side effects of processing one issue. -/
inductive Effect where
  | generate
  | writeFile (name content : String)
  | postComment (issue : Nat) (text : String)
deriving DecidableEq

/-- Whether an effect is a write to the scratch directory. -/
def Effect.isFileWrite : Effect → Bool
  | .writeFile _ _ => true
  | _ => false

/-- Outcome of the existing-plan scan over an issue's comments
(the `for c in data.get("comments", [])` loop in `process_issue`). -/
inductive ScanOutcome where
  | skip
  | voidPlan
  | noMarker
deriving DecidableEq

/-- Scan comments for a prior plan: the first comment containing
`PLAN_MARKER` decides — `skip` when it lacks `LIMIT_NOTICE`, otherwise
`voidPlan` (the loop `break`s and generation proceeds). -/
def scanComments : List String → ScanOutcome
  | [] => .noMarker
  | c :: rest =>
      if strContains c PLAN_MARKER then
        if strContains c LIMIT_NOTICE then .voidPlan else .skip
      else scanComments rest

/-- Header prepended by `post_plan`: the plan marker, a revision tag when
replanning, and the replan reason when one was supplied (Python truthiness:
an empty reason string adds nothing). -/
def post_header (opts : Options) : String :=
  PLAN_MARKER ++ (if opts.replan then " (Revised)" else "") ++ "\n\n" ++
    (match opts.replan_reason with
     | some r => if r = "" then "" else "**Replan reason:** " ++ r ++ "\n\n"
     | none => "")

/-- Posting step (`post_plan`): emit the comment, then raise
`"Failed to post comment"` when `gh` exits non-zero. -/
def post_step (opts : Options) (env : Env) (plan : String) (effs : List Effect) :
    Except String Result × List Effect :=
  let text := post_header opts ++ plan
  let effs2 := effs ++ [Effect.postComment env.issue text]
  if env.postOk then (Except.ok ⟨env.issue, "posted", none⟩, effs2)
  else (Except.error "Failed to post comment", effs2)

/-- Python `data.get("title") or "Untitled"` (a JSON `null` and the empty
string are both falsy). -/
def titleOf (data : IssueData) : String :=
  match data.title with
  | none => "Untitled"
  | some t => if t = "" then "Untitled" else t

/-- Python `data.get("body") or ""`. -/
def bodyOf (data : IssueData) : String :=
  match data.body with
  | none => ""
  | some b => b

/-- Title validation: a title longer than `MAX_TITLE_LENGTH` is truncated
(with a warning logged) and a trailing `"..."` marker appended — not fatal. -/
def truncTitle (t : String) : String :=
  if pyLen t > MAX_TITLE_LENGTH then String.mk (t.data.take MAX_TITLE_LENGTH) ++ "..." else t

/-- Body of the `try` block of `Planner.process_issue`, steps 1-7:
fetch, validate title and body, scan for an existing plan, dry-run preview,
generate, optionally review, post.  `Except.error m` means an exception with
message `m` escapes the block. -/
def process_steps (opts : Options) (env : Env) : Except String Result × List Effect :=
  match env.fetch with
  | .error e => (.error e, [])
  | .ok data =>
    if pyLen (bodyOf data) > MAX_BODY_SIZE then
      (.error ("Issue body too large (" ++ toString (pyLen (bodyOf data)) ++ " bytes, max "
        ++ toString MAX_BODY_SIZE ++ ")"), [])
    else if opts.replan = false ∧ scanComments data.comments = ScanOutcome.skip then
      (.ok ⟨env.issue, "skipped", none⟩, [])
    else if opts.dry_run then
      (.ok ⟨env.issue, "dry-run", none⟩, [])
    else
      match env.generate (truncTitle (titleOf data)) (bodyOf data) with
      | .error e => (.error e, [.generate])
      | .ok plan =>
        if pyStrip plan = "" then (.error "Empty plan", [.generate])
        else if opts.auto then post_step opts env plan [.generate]
        else
          match env.review plan with
          | .error e => (.error e, [.generate])
          | .ok plan2 =>
            if pyStrip plan2 = "" then
              (.ok ⟨env.issue, "skipped", none⟩, [.generate, .writeFile "review.md" plan])
            else post_step opts env plan2 [.generate, .writeFile "review.md" plan]

/-- `Planner.process_issue`: run the steps and convert any escaping
exception into `Result(issue, "error", str(e))`. -/
def process_issue (opts : Options) (env : Env) : Result × List Effect :=
  match process_steps opts env with
  | (.ok r, effs) => (r, effs)
  | (.error e, effs) => (⟨env.issue, "error", some e⟩, effs)

/-- Numeric value of a decimal digit character. -/
def digitVal (c : Char) : Nat := c.toNat - '0'.toNat

/-- Parse the `(am|pm)?$` tail of a time string, case-insensitively as under
`re.I`: `some none` is no meridiem, `some (some true)` is pm, `none` is a
failed match. -/
def parseAmpmEnd : List Char → Option (Option Bool)
  | [] => some none
  | [a, b] =>
      if (a = 'a' || a = 'A') && (b = 'm' || b = 'M') then some (some false)
      else if (a = 'p' || a = 'P') && (b = 'm' || b = 'M') then some (some true)
      else none
  | _ => none

/-- Parse the `(?::(\d{2}))?(am|pm)?$` suffix.  A leading `:` must be
followed by exactly two digits: no other regex branch can consume a `:`. -/
def parseMinSuffix : List Char → Option (Option Nat × Option Bool)
  | ':' :: a :: b :: rest =>
      if a.isDigit && b.isDigit then
        match parseAmpmEnd rest with
        | some ap => some (some (digitVal a * 10 + digitVal b), ap)
        | none => none
      else none
  | ':' :: _ => none
  | l =>
      match parseAmpmEnd l with
      | some ap => some (none, ap)
      | none => none

/-- Match of `^(\d{1,2})(?::(\d{2}))?(am|pm)?$` under `re.I`, returning
`(hour, minute, meridiem)` with Python's `int(minute or 0)` applied.  The
greedy parse below is exact: backtracking from two leading digits to one
always fails, because the suffix grammar cannot consume a digit. -/
def parseTimeStr (s : String) : Option (Nat × Nat × Option Bool) :=
  match s.data with
  | [] => none
  | d1 :: rest =>
      if d1.isDigit then
        match rest with
        | d2 :: rest2 =>
            if d2.isDigit then
              match parseMinSuffix rest2 with
              | some (mi, ap) => some (digitVal d1 * 10 + digitVal d2, mi.getD 0, ap)
              | none => none
            else
              match parseMinSuffix rest with
              | some (mi, ap) => some (digitVal d1, mi.getD 0, ap)
              | none => none
        | [] => some (digitVal d1, 0, none)
      else none

/-- Meridiem adjustment in `parse_reset_epoch`: `pm` adds 12 below noon and
`12am` becomes hour 0. -/
def adjustHour (h : Nat) : Option Bool → Nat
  | none => h
  | some true => if h < 12 then h + 12 else h
  | some false => if h = 12 then 0 else h

/-- Microseconds per second. -/
def usPerSec : Int := 1000000

/-- Microseconds per day. -/
def usPerDay : Int := 86400000000

/-- Epoch instant (in microseconds) of today's occurrence of `h:mi` in the
zone with UTC offset `off` seconds, where "today" is the current date in
that zone (`now_utc.astimezone(tz).date()` combined with `dt.time(h, mi)`). -/
def todayOccurrenceUs (off nowUs : Int) (h mi : Nat) : Int :=
  ((nowUs + off * usPerSec).fdiv usPerDay * 86400 + (h : Int) * 3600 + (mi : Int) * 60 - off)
    * usPerSec

/-- Model of `parse_reset_epoch`.  The timezone is modelled as a fixed UTC
offset `off` in seconds (the allow-listed zone, or the
`America/Los_Angeles` fallback, resolved to its offset at `now`); `nowUs`
is the current instant in microseconds since the epoch (non-negative for
every real clock reading, so `int()` truncation is flooring).  `none`
models the `ValueError` raised by `dt.time` on an out-of-range hour or
minute; otherwise the result is `some` of the returned epoch seconds. -/
def parse_reset_epoch (off nowUs : Int) (time_str : String) : Option Int :=
  match parseTimeStr time_str with
  | none => some (nowUs.fdiv usPerSec + 3600)
  | some (h0, mi, ap) =>
      let h := adjustHour h0 ap
      if 24 ≤ h ∨ 60 ≤ mi then none
      else
        let localUs := todayOccurrenceUs off nowUs h mi
        let localUs2 := if localUs < nowUs then localUs + usPerDay else localUs
        some (localUs2.fdiv usPerSec)

/-- Serialized timeline of `Planner.throttle` acquisitions.  The mutex admits
requests in list order; a worker reads the clock at the later of its request
time and the moment the lock becomes free; sleeps are exact; `last` is
`self._last_call` (initially 0.0) and is only touched under the lock.  When
the configured interval is non-positive the method returns before taking the
lock, so the call starts at its request time and `last` is untouched.
Returns the start time of each throttled call. -/
def throttleRun (d : ℚ) : ℚ → ℚ → List ℚ → List ℚ
  | _, _, [] => []
  | last, free, r :: rs =>
      if d ≤ 0 then r :: throttleRun d last free rs
      else
        let t := max r free
        let s := if t - last < d then last + d else t
        s :: throttleRun d s s rs

/-- Call-start times of a sequence of throttle acquisitions, from the
initial state of a fresh `Planner`. -/
def throttleStarts (d : ℚ) (reqs : List ℚ) : List ℚ := throttleRun d 0 0 reqs

/-- Sequential orchestration (`for i, issue in enumerate(issue_list)`):
process each issue in input order, appending its `Result`. -/
def runSequential (process : Nat → Nat → Nat → Result) (issues : List Nat) : List Result :=
  (List.range issues.length).map fun i => process (issues.getD i 0) (i + 1) issues.length

/-- Lookup in the `indexed_results` dictionary after the workers listed in
`order` have completed: each completion stores its result keyed by input
position (each position is submitted once, so at most one store per key). -/
def collectIndexed (computed : Nat → Result) : List Nat → Nat → Option Result
  | [], _ => none
  | idx :: rest, j => if j = idx then some (computed idx) else collectIndexed computed rest j

/-- Parallel orchestration: workers complete in `order` (an arbitrary
completion order of the pool), results land in `indexed_results`, and the
final list is read back by `for i in range(len(issue_list))`.  `none`
models a `KeyError` on a missing position. -/
def runParallel (process : Nat → Nat → Nat → Result) (issues : List Nat) (order : List Nat) :
    Option (List Result) :=
  (List.range issues.length).mapM
    (collectIndexed (fun i => process (issues.getD i 0) (i + 1) issues.length) order)

/-- Outcome of one generator attempt as observed by the retry loop of
`generate_plan`: either the streaming read hit the deadline (`timeout`), or
the process exited with combined output `text`, exit code `exitCode`, and
`rlReset` the value `detect_rate_limit(combined)` computed for that output
(its epoch arithmetic is `parse_reset_epoch` above). -/
inductive Attempt where
  | timeout
  | completed (text : String) (exitCode : Int) (rlReset : Option Int)

/-- Blocking actions taken by the retry loop: a throttle acquisition at the
top of each attempt, an exponential-backoff sleep in seconds, or a
`wait_until` poll until a reset epoch passes. -/
inductive GenAction where
  | throttle
  | sleep (secs : Nat)
  | waitUntil (epoch : Int)
deriving DecidableEq

/-- Retry loop of `Planner.generate_plan`, from attempt number `attempt`
with `fuel` attempts remaining (`for attempt in range(1, MAX_RETRIES + 1)`):
throttle, run the attempt, then classify in source order — timeout retries
with no sleep; a CLI JSON error envelope sleeps `2 ** attempt`; a detected
rate-limit window waits for the reset and retries with no sleep; exit code 0
returns the output; any other exit sleeps `2 ** attempt`.  Returns the
blocking-action trace and the result (`Except.error` is the
`RuntimeError("Claude retries exceeded")` escape). -/
def generate_plan_go (att : Nat → Attempt) : Nat → Nat → List GenAction × Except String String
  | _, 0 => ([], .error "Claude retries exceeded")
  | attempt, fuel + 1 =>
      match att attempt with
      | .timeout =>
          let next := generate_plan_go att (attempt + 1) fuel
          (GenAction.throttle :: next.1, next.2)
      | .completed text exitCode rlReset =>
          if strContains text JSON_ERROR_PAT then
            let next := generate_plan_go att (attempt + 1) fuel
            (GenAction.throttle :: GenAction.sleep (2 ^ attempt) :: next.1, next.2)
          else
            match rlReset with
            | some reset =>
                let next := generate_plan_go att (attempt + 1) fuel
                (GenAction.throttle :: GenAction.waitUntil reset :: next.1, next.2)
            | none =>
                if exitCode = 0 then ([GenAction.throttle], .ok text)
                else
                  let next := generate_plan_go att (attempt + 1) fuel
                  (GenAction.throttle :: GenAction.sleep (2 ^ attempt) :: next.1, next.2)

/-- `Planner.generate_plan` for one issue, given the attempt outcomes. -/
def generate_plan (att : Nat → Attempt) : List GenAction × Except String String :=
  generate_plan_go att 1 MAX_RETRIES

/-- Construction of `Options.replan` in `main`:
`replan=args.replan or bool(args.replan_reason)`, where Python truthiness
makes `None` and the empty string falsy. -/
def mkReplan (replan_flag : Bool) (replan_reason : Option String) : Bool :=
  replan_flag ||
    (match replan_reason with
     | none => false
     | some s => if s = "" then false else true)

/-! ## Helper lemmas -/

lemma collectIndexed_mem (computed : Nat → Result) (order : List Nat) (i : Nat)
    (h : i ∈ order) : collectIndexed computed order i = some (computed i) := by
  induction order with
  | nil => cases h
  | cons a rest ih =>
      by_cases hi : i = a
      · simp [collectIndexed, hi]
      · have : i ∈ rest := by
          rcases List.mem_cons.mp h with h1 | h1
          · exact absurd h1 hi
          · exact h1
        simp [collectIndexed, hi, ih this]

lemma mapM_eq_some_map {α β : Type} (f : α → Option β) (g : α → β) :
    ∀ l : List α, (∀ a ∈ l, f a = some (g a)) → l.mapM f = some (l.map g) := by
  intro l
  induction l with
  | nil => intro _; rfl
  | cons a t ih =>
      intro h
      have ha : f a = some (g a) := h a (by simp)
      have ht := ih (fun b hb => h b (by simp [hb]))
      rw [List.mapM_cons, ha, ht]
      rfl

/-! ## C1: orchestration preserves input order in both modes -/

/-- C1: for every ordered input list and both execution modes — sequential,
and parallel with any pool size, modelled by an arbitrary completion order
of the submitted positions — the orchestrator returns exactly one `Result`
per input item, and the list is indexed in input order: the `i`-th returned
`Result` is the outcome of processing the `i`-th input issue.  In
particular the parallel read-back never hits a `KeyError` and equals the
sequential result list. -/
theorem orchestrator_preserves_input_order
    (process : Nat → Nat → Nat → Result) (issues : List Nat) (order : List Nat)
    (hperm : order.Perm (List.range issues.length)) :
    runSequential process issues =
      (List.range issues.length).map
        (fun i => process (issues.getD i 0) (i + 1) issues.length) ∧
    (runSequential process issues).length = issues.length ∧
    runParallel process issues order = some (runSequential process issues) := by
  refine ⟨rfl, by simp [runSequential], ?_⟩
  unfold runParallel runSequential
  apply mapM_eq_some_map
  intro i hi
  apply collectIndexed_mem
  exact (hperm.mem_iff).mpr hi

/-- Witness for C1 at the spec's example: input order `[3, 1, 2]`, workers
completing in the order of positions `[2, 0, 1]`. -/
theorem orchestrator_preserves_input_order_witness :
    (([2, 0, 1] : List Nat).Perm (List.range ([3, 1, 2] : List Nat).length)) ∧
    runParallel (fun iss idx _ => ⟨iss, "posted#" ++ toString idx, none⟩) [3, 1, 2] [2, 0, 1] =
      some (runSequential (fun iss idx _ => ⟨iss, "posted#" ++ toString idx, none⟩) [3, 1, 2]) := by
  refine ⟨by decide, ?_⟩
  exact (orchestrator_preserves_input_order
    (fun iss idx _ => ⟨iss, "posted#" ++ toString idx, none⟩) [3, 1, 2] [2, 0, 1] (by decide)).2.2

/-! ## C2: per-item exception containment -/

lemma process_steps_ok_shape (opts : Options) (env : Env) (r : Result) (effs : List Effect)
    (h : process_steps opts env = (Except.ok r, effs)) :
    r.issue = env.issue ∧
    (r.status = "posted" ∨ r.status = "skipped" ∨ r.status = "dry-run") := by
  unfold process_steps post_step at h
  repeat' split at h
  all_goals simp at h
  all_goals obtain ⟨rfl, rfl⟩ := h
  all_goals simp

/-- C2: for every configuration and every behaviour of the collaborators —
fetch failure, oversized body, generator failure or exhaustion, empty plan,
review failure, posting failure — `process_issue` is a total function
returning a `Result` for the processed issue whose status is one of the
four terminal statuses, and whenever the steps raise an exception with
message `m` the returned record is exactly `Result(issue, "error", m)`; no
exception escapes, so one item's failure cannot abort sibling items. -/
theorem process_issue_contains_exceptions (opts : Options) (env : Env) :
    (process_issue opts env).1.issue = env.issue ∧
    ((process_issue opts env).1.status = "posted" ∨
     (process_issue opts env).1.status = "skipped" ∨
     (process_issue opts env).1.status = "dry-run" ∨
     (process_issue opts env).1.status = "error") ∧
    (∀ m, (process_steps opts env).1 = Except.error m →
      (process_issue opts env).1 = ⟨env.issue, "error", some m⟩) := by
  rcases hps : process_steps opts env with ⟨res, effs⟩
  cases res with
  | error e =>
      simp [process_issue, hps]
  | ok r =>
      have hshape := process_steps_ok_shape opts env r effs hps
      simp only [process_issue, hps]
      refine ⟨hshape.1, ?_, ?_⟩
      · rcases hshape.2 with h | h | h <;> simp [h]
      · intro m hm
        simp at hm

/-- Witness for C2: a concrete failing fetch is converted into an error
`Result` carrying the message. -/
theorem process_issue_contains_exceptions_witness :
    (process_issue ⟨true, false, none, false, false, false, 4, 600, 0, false⟩
        ⟨9, .error "boom", fun _ _ => .ok "p", fun p => .ok p, true⟩).1 =
      ⟨9, "error", some "boom"⟩ := by
  exact (process_issue_contains_exceptions
    ⟨true, false, none, false, false, false, 4, 600, 0, false⟩
    ⟨9, .error "boom", fun _ _ => .ok "p", fun p => .ok p, true⟩).2.2 "boom" rfl

/-! ## C3: the existing-plan scan -/

lemma process_issue_snd (opts : Options) (env : Env) :
    (process_issue opts env).2 = (process_steps opts env).2 := by
  rcases h : process_steps opts env with ⟨res, effs⟩
  cases res <;> simp [process_issue, h]

lemma scanComments_append_of_no_marker (cs rest : List String)
    (h : ∀ b ∈ cs, strContains b PLAN_MARKER = false) :
    scanComments (cs ++ rest) = scanComments rest := by
  induction cs with
  | nil => rfl
  | cons a t ih =>
      have ha : strContains a PLAN_MARKER = false := h a (by simp)
      simp only [List.cons_append, scanComments, ha, Bool.false_eq_true, if_false]
      exact ih (fun b hb => h b (by simp [hb]))

lemma scanComments_first_marker (cs : List String) (c : String) (cs' : List String)
    (hnomark : ∀ b ∈ cs, strContains b PLAN_MARKER = false)
    (hmark : strContains c PLAN_MARKER = true) :
    scanComments (cs ++ c :: cs') =
      (if strContains c LIMIT_NOTICE then ScanOutcome.voidPlan else ScanOutcome.skip) := by
  rw [scanComments_append_of_no_marker cs _ hnomark]
  simp [scanComments, hmark]

lemma process_issue_skip_of_scan (opts : Options) (env : Env) (data : IssueData)
    (hfetch : env.fetch = Except.ok data)
    (hbody : pyLen (bodyOf data) ≤ MAX_BODY_SIZE)
    (hreplan : opts.replan = false)
    (hscan : scanComments data.comments = ScanOutcome.skip) :
    process_issue opts env = (⟨env.issue, "skipped", none⟩, []) := by
  unfold process_issue process_steps
  simp only [hfetch]
  rw [if_neg (by omega)]
  rw [if_pos ⟨hreplan, hscan⟩]

/-- C3 counterexample: the input list of comments holds a comment that
contains the plan marker and no rate-limit notice (the bare marker itself),
`replan` is off — yet the item is not skipped and the generator runs,
because an earlier comment carried the marker together with a rate-limit
notice and the scan `break`s there. -/
theorem scan_some_marker_comment_cex :
    strContains PLAN_MARKER PLAN_MARKER = true ∧
    strContains PLAN_MARKER LIMIT_NOTICE = false ∧
    PLAN_MARKER ∈ [PLAN_MARKER ++ " Limit reached", PLAN_MARKER] ∧
    (process_issue ⟨true, false, none, false, false, false, 4, 600, 0, false⟩
        ⟨7, .ok ⟨some "T", some "b", [PLAN_MARKER ++ " Limit reached", PLAN_MARKER]⟩,
          fun _ _ => .ok "the plan", fun p => .ok p, true⟩).1.status = "posted" ∧
    Effect.generate ∈ (process_issue ⟨true, false, none, false, false, false, 4, 600, 0, false⟩
        ⟨7, .ok ⟨some "T", some "b", [PLAN_MARKER ++ " Limit reached", PLAN_MARKER]⟩,
          fun _ _ => .ok "the plan", fun p => .ok p, true⟩).2 := by
  decide

/-- C3 amended: with `replan=false` the scan is decided by the FIRST comment
containing the plan marker.  If that comment does not contain a rate-limit
notice, the item is skipped with an empty effect trace (zero generator
invocations); if it does, the prior plan counts as void — the scan yields
`voidPlan` and (outside dry-run) processing continues into generation. -/
theorem scan_first_marker_decides (opts : Options) (env : Env) (data : IssueData)
    (cs : List String) (c : String) (cs' : List String)
    (hfetch : env.fetch = Except.ok data)
    (hcomments : data.comments = cs ++ c :: cs')
    (hnomark : ∀ b ∈ cs, strContains b PLAN_MARKER = false)
    (hmark : strContains c PLAN_MARKER = true)
    (hreplan : opts.replan = false)
    (hbody : pyLen (bodyOf data) ≤ MAX_BODY_SIZE) :
    (strContains c LIMIT_NOTICE = false →
      process_issue opts env = (⟨env.issue, "skipped", none⟩, [])) ∧
    (strContains c LIMIT_NOTICE = true →
      scanComments data.comments = ScanOutcome.voidPlan ∧
      (opts.dry_run = false → Effect.generate ∈ (process_issue opts env).2)) := by
  have hscan : scanComments data.comments =
      (if strContains c LIMIT_NOTICE then ScanOutcome.voidPlan else ScanOutcome.skip) := by
    rw [hcomments]
    exact scanComments_first_marker cs c cs' hnomark hmark
  constructor
  · intro hlim
    rw [hlim] at hscan
    simp only [if_false, Bool.false_eq_true] at hscan
    exact process_issue_skip_of_scan opts env data hfetch hbody hreplan hscan
  · intro hlim
    rw [hlim] at hscan
    simp only [if_true] at hscan
    refine ⟨hscan, ?_⟩
    intro hdry
    rw [process_issue_snd]
    unfold process_steps post_step
    simp only [hfetch]
    rw [if_neg (by omega : ¬ pyLen (bodyOf data) > MAX_BODY_SIZE)]
    rw [if_neg (by rintro ⟨-, h⟩; rw [hscan] at h; cases h)]
    rw [if_neg (by simp [hdry])]
    repeat' split
    all_goals simp

/-- Witness for C3 amended: a single bare-marker comment causes a skip with
zero generator invocations. -/
theorem scan_first_marker_decides_witness :
    process_issue ⟨true, false, none, false, false, false, 4, 600, 0, false⟩
        ⟨8, .ok ⟨some "T", some "b", [PLAN_MARKER]⟩,
          fun _ _ => .ok "p", fun p => .ok p, true⟩ =
      (⟨8, "skipped", none⟩, []) := by
  exact (scan_first_marker_decides
    ⟨true, false, none, false, false, false, 4, 600, 0, false⟩
    ⟨8, .ok ⟨some "T", some "b", [PLAN_MARKER]⟩, fun _ _ => .ok "p", fun p => .ok p, true⟩
    ⟨some "T", some "b", [PLAN_MARKER]⟩ [] PLAN_MARKER []
    rfl rfl (by simp) (by decide) rfl (by decide)).1 (by decide)

/-! ## C4: the computed reset instant versus "now" -/

lemma todayOccurrenceUs_window (off nowUs : Int) (h mi : Nat) (hh : h < 24) (hmi : mi < 60) :
    nowUs - usPerDay < todayOccurrenceUs off nowUs h mi ∧
    todayOccurrenceUs off nowUs h mi < nowUs + usPerDay := by
  unfold todayOccurrenceUs usPerSec usPerDay
  rw [Int.fdiv_eq_ediv _ (by norm_num)]
  constructor <;> omega

/-- C4 counterexample: in zone UTC, at the instant that is exactly today's
2:00:00.000000 pm, the notice time `"2pm"` parses, yet the returned epoch
equals "now" — it is not strictly in the future. -/
theorem reset_epoch_strict_future_cex :
    parse_reset_epoch 0 1728050400000000 "2pm" = some 1728050400 ∧
    ¬ (1728050400000000 < 1728050400 * usPerSec) := by
  constructor
  · rfl
  · decide

/-- C4 amended: for a parsed time of day that is a valid clock time, the
returned reset epoch is never in the past: it is at or after "now", and it
is strictly in the future except in the boundary case where today's
occurrence of the parsed time is exactly the current instant (the code
advances by one day only when that occurrence is strictly before now). -/
theorem reset_epoch_never_past (off nowUs : Int) (time_str : String)
    (h0 mi : Nat) (ap : Option Bool)
    (hparse : parseTimeStr time_str = some (h0, mi, ap))
    (hh : adjustHour h0 ap < 24) (hmi : mi < 60) :
    ∃ r, parse_reset_epoch off nowUs time_str = some r ∧
      nowUs ≤ r * usPerSec ∧
      (todayOccurrenceUs off nowUs (adjustHour h0 ap) mi ≠ nowUs → nowUs < r * usPerSec) := by
  have hwin := todayOccurrenceUs_window off nowUs (adjustHour h0 ap) mi hh hmi
  have hcancel : ∀ Y : Int, (Y * usPerSec).fdiv usPerSec = Y := by
    intro Y
    exact Int.mul_fdiv_cancel Y (by norm_num [usPerSec])
  have hguard : ¬ (24 ≤ adjustHour h0 ap ∨ 60 ≤ mi) := by omega
  simp only [parse_reset_epoch, hparse]
  rw [if_neg hguard]
  by_cases hlt : todayOccurrenceUs off nowUs (adjustHour h0 ap) mi < nowUs
  · rw [if_pos hlt]
    have hrw : todayOccurrenceUs off nowUs (adjustHour h0 ap) mi + usPerDay
        = ((nowUs + off * usPerSec).fdiv usPerDay * 86400 + ((adjustHour h0 ap : Nat) : Int) * 3600
            + (mi : Int) * 60 - off + 86400) * usPerSec := by
      unfold todayOccurrenceUs usPerDay usPerSec
      ring
    refine ⟨_, rfl, ?_, ?_⟩
    · rw [hrw, hcancel, ← hrw]
      linarith [hwin.1]
    · intro _
      rw [hrw, hcancel, ← hrw]
      linarith [hwin.1]
  · rw [if_neg hlt]
    have hrw : todayOccurrenceUs off nowUs (adjustHour h0 ap) mi
        = ((nowUs + off * usPerSec).fdiv usPerDay * 86400 + ((adjustHour h0 ap : Nat) : Int) * 3600
            + (mi : Int) * 60 - off) * usPerSec := rfl
    refine ⟨_, rfl, ?_, ?_⟩
    · rw [hrw, hcancel, ← hrw]
      exact not_lt.mp hlt
    · intro hne
      rw [hrw, hcancel, ← hrw]
      exact lt_of_le_of_ne (not_lt.mp hlt) (Ne.symm hne)

/-- Witness for C4 amended: half a second past 2 pm UTC, `"2pm"` resolves to
2 pm of the next day, strictly in the future. -/
theorem reset_epoch_never_past_witness :
    parseTimeStr "2pm" = some (2, 0, some true) ∧
    (∃ r, parse_reset_epoch 0 1728050400500000 "2pm" = some r ∧
      (1728050400500000 : Int) ≤ r * usPerSec ∧
      (todayOccurrenceUs 0 1728050400500000 (adjustHour 2 (some true)) 0 ≠ 1728050400500000 →
        (1728050400500000 : Int) < r * usPerSec)) := by
  exact ⟨by decide, reset_epoch_never_past 0 1728050400500000 "2pm" 2 0 (some true)
    (by decide) (by decide) (by decide)⟩

/-! ## C5: throttle spacing -/

lemma throttleRun_noop (d : ℚ) (hd : d ≤ 0) (last free : ℚ) (reqs : List ℚ) :
    throttleRun d last free reqs = reqs := by
  induction reqs generalizing last free with
  | nil => rfl
  | cons r rs ih => simp [throttleRun, hd, ih]

lemma throttleRun_spaced (d : ℚ) (hd : 0 < d) (reqs : List ℚ) :
    ∀ last free : ℚ,
      (throttleRun d last free reqs).Pairwise (fun a b => a + d ≤ b) ∧
      ∀ s ∈ throttleRun d last free reqs, last + d ≤ s := by
  induction reqs with
  | nil => intro last free; simp [throttleRun]
  | cons r rs ih =>
      intro last free
      rw [throttleRun, if_neg (not_le.mpr hd)]
      set t := max r free with ht
      set s0 := if t - last < d then last + d else t with hs0
      obtain ⟨ihp, ihge⟩ := ih s0 s0
      have hstart : last + d ≤ s0 := by
        rw [hs0]
        split
        next => exact le_rfl
        next h => linarith [not_lt.mp h]
      refine ⟨List.Pairwise.cons (fun b hb => ihge b hb) ihp, ?_⟩
      intro s hs
      rcases List.mem_cons.mp hs with rfl | hs'
      · exact hstart
      · have := ihge s hs'
        linarith

/-- C5: the throttle's serialized acquisition timeline.  When the configured
interval `d` is positive, any two call starts — not merely consecutive ones —
are at least `d` apart, for any number of queued acquisitions; when `d ≤ 0`
the operation is a no-op: every call starts at its own request time,
unblocked. -/
theorem throttle_min_spacing (d : ℚ) (reqs : List ℚ) :
    (d ≤ 0 → throttleStarts d reqs = reqs) ∧
    (0 < d → (throttleStarts d reqs).Pairwise (fun a b => a + d ≤ b)) := by
  constructor
  · intro hd
    exact throttleRun_noop d hd 0 0 reqs
  · intro hd
    exact (throttleRun_spaced d hd reqs 0 0).1

/-- Witness for C5: three workers requesting at times 0, 1/5 and 5 with a
one-second interval start at 1, 2 and 5; with a zero interval they start at
their request times. -/
theorem throttle_min_spacing_witness :
    ((0 : ℚ) < 1 ∧ (throttleStarts 1 [0, 1/5, 5]).Pairwise (fun a b => a + 1 ≤ b)) ∧
    ((0 : ℚ) ≤ 0 ∧ throttleStarts 0 [0, 1/5, 5] = [0, 1/5, 5]) := by
  constructor
  · exact ⟨by norm_num, (throttle_min_spacing 1 [0, 1/5, 5]).2 (by norm_num)⟩
  · exact ⟨le_refl 0, (throttle_min_spacing 0 [0, 1/5, 5]).1 (le_refl 0)⟩

/-! ## C6: the body-size validation measures code points, not bytes -/

/-- Byte size of a string in UTF-8: the measure the specification's
"maximum byte size" limit refers to (the code compares `len(body)`, a
code-point count, against `MAX_BODY_SIZE`). -/
def utf8ByteLen (s : String) : Nat := (s.data.map Char.utf8Size).sum

lemma process_issue_dry_run (opts : Options) (env : Env) (data : IssueData)
    (hfetch : env.fetch = Except.ok data)
    (hsize : pyLen (bodyOf data) ≤ MAX_BODY_SIZE)
    (hreplan : opts.replan = true)
    (hdry : opts.dry_run = true) :
    process_issue opts env = (⟨env.issue, "dry-run", none⟩, []) := by
  unfold process_issue process_steps
  simp only [hfetch]
  rw [if_neg (by omega)]
  rw [if_neg (by rw [hreplan]; rintro ⟨h, -⟩; cases h)]
  rw [if_pos hdry]

/-- C6, evaluated at the failing input: a body of `MAX_BODY_SIZE` copies of
a two-byte character occupies `2 * MAX_BODY_SIZE` bytes — over the limit —
yet validation passes, because the code counts code points; processing
continues past validation (here to a dry-run preview) instead of returning
the size error the claim requires. -/
theorem body_size_check_counts_code_points :
    utf8ByteLen (String.mk (List.replicate MAX_BODY_SIZE 'é')) = 2 * MAX_BODY_SIZE ∧
    (process_issue ⟨true, true, none, true, false, false, 4, 600, 0, false⟩
        ⟨11, .ok ⟨some "T", some (String.mk (List.replicate MAX_BODY_SIZE 'é')), []⟩,
          fun _ _ => .ok "p", fun p => .ok p, true⟩).1.status = "dry-run" := by
  have hdata : (String.mk (List.replicate MAX_BODY_SIZE 'é')).data
      = List.replicate MAX_BODY_SIZE 'é' := rfl
  have hlen : pyLen (String.mk (List.replicate MAX_BODY_SIZE 'é')) = MAX_BODY_SIZE := by
    rw [pyLen, hdata, List.length_replicate]
  constructor
  · rw [utf8ByteLen, hdata, List.map_replicate]
    rw [show Char.utf8Size 'é' = 2 from rfl]
    rw [List.sum_replicate, smul_eq_mul, Nat.mul_comm]
  · rw [process_issue_dry_run _ _
      ⟨some "T", some (String.mk (List.replicate MAX_BODY_SIZE 'é')), []⟩ rfl
      (le_of_eq hlen) rfl rfl]

/-! ## C7: unparseable time strings fail open -/

/-- C7: for every captured time string that fails to match the
`H[:MM][am|pm]` pattern, and for every zone offset and every current
instant, the detector neither raises nor blocks: it returns `some` reset
exactly one hour (3600 seconds) after the current time. -/
theorem reset_epoch_fail_open (off nowUs : Int) (time_str : String)
    (hparse : parseTimeStr time_str = none) :
    parse_reset_epoch off nowUs time_str = some (nowUs.fdiv usPerSec + 3600) := by
  simp only [parse_reset_epoch, hparse]

/-- Witness for C7 at the unparseable captured string `"soon"`. -/
theorem reset_epoch_fail_open_witness :
    parseTimeStr "soon" = none ∧
    parse_reset_epoch (-28800) 1728050400000000 "soon"
      = some ((1728050400000000 : Int).fdiv usPerSec + 3600) := by
  exact ⟨rfl, reset_epoch_fail_open (-28800) 1728050400000000 "soon" rfl⟩

/-! ## C8: retry-loop policy for rate limits versus other failures -/

/-- C8: in the generator retry loop, a detected rate-limit window makes the
attempt block on `wait_until(reset)` and retry with no backoff sleep, while
still consuming one of the `MAX_RETRIES = 3` attempts: three rate-limited
attempts wait three times, sleep zero times, and exhaust the budget.
Transient errors — outputs carrying the CLI JSON error envelope, whatever
the exit code and even when a rate-limit reset would also be detectable in
the same output (the envelope is classified first, in source order) — and
non-zero exits instead sleep `2 ** attempt` seconds (2, 4, 8) before
retrying.  A clean exit returns the output at once. -/
theorem generate_plan_retry_policy (r1 r2 r3 c1 c2 c3 : Int) (t : String)
    (rl1 rl2 rl3 : Option Int) (e1 e2 e3 : Int) (tj : String)
    (hc1 : c1 ≠ 0) (hc2 : c2 ≠ 0) (hc3 : c3 ≠ 0)
    (ht : strContains t JSON_ERROR_PAT = false)
    (htj : strContains tj JSON_ERROR_PAT = true) :
    generate_plan (fun k => if k = 1 then .completed t 0 (some r1)
        else if k = 2 then .completed t 0 (some r2) else .completed t 0 (some r3)) =
      ([.throttle, .waitUntil r1, .throttle, .waitUntil r2, .throttle, .waitUntil r3],
        .error "Claude retries exceeded") ∧
    generate_plan (fun k => if k = 1 then .completed tj e1 rl1
        else if k = 2 then .completed tj e2 rl2 else .completed tj e3 rl3) =
      ([.throttle, .sleep 2, .throttle, .sleep 4, .throttle, .sleep 8],
        .error "Claude retries exceeded") ∧
    generate_plan (fun k => if k = 1 then .completed t c1 none
        else if k = 2 then .completed t c2 none else .completed t c3 none) =
      ([.throttle, .sleep 2, .throttle, .sleep 4, .throttle, .sleep 8],
        .error "Claude retries exceeded") ∧
    generate_plan (fun _ => .completed t 0 none) = ([.throttle], .ok t) := by
  refine ⟨?_, ?_, ?_, ?_⟩ <;>
    simp [generate_plan, MAX_RETRIES, generate_plan_go, ht, htj, hc1, hc2, hc3]

/-- Witness for C8 with concrete resets, exit codes and output texts; the
envelope scenario uses an output containing the envelope pattern itself,
a zero exit code and a detectable reset, all overridden by the envelope. -/
theorem generate_plan_retry_policy_witness :
    ((1 : Int) ≠ 0 ∧ strContains "out" JSON_ERROR_PAT = false ∧
      strContains ("x " ++ JSON_ERROR_PAT ++ " y") JSON_ERROR_PAT = true) ∧
    generate_plan (fun k => if k = 1 then .completed "out" 0 (some 5)
        else if k = 2 then .completed "out" 0 (some 6) else .completed "out" 0 (some 7)) =
      ([.throttle, .waitUntil 5, .throttle, .waitUntil 6, .throttle, .waitUntil 7],
        .error "Claude retries exceeded") ∧
    generate_plan (fun k => if k = 1 then .completed ("x " ++ JSON_ERROR_PAT ++ " y") 0 (some 5)
        else if k = 2 then .completed ("x " ++ JSON_ERROR_PAT ++ " y") 0 (some 6)
        else .completed ("x " ++ JSON_ERROR_PAT ++ " y") 0 (some 7)) =
      ([.throttle, .sleep 2, .throttle, .sleep 4, .throttle, .sleep 8],
        .error "Claude retries exceeded") := by
  refine ⟨⟨by decide, by decide, by decide⟩, ?_, ?_⟩
  · exact (generate_plan_retry_policy 5 6 7 1 1 1 "out" (some 5) (some 6) (some 7) 0 0 0
      ("x " ++ JSON_ERROR_PAT ++ " y")
      (by decide) (by decide) (by decide) (by decide) (by decide)).1
  · exact (generate_plan_retry_policy 5 6 7 1 1 1 "out" (some 5) (some 6) (some 7) 0 0 0
      ("x " ++ JSON_ERROR_PAT ++ " y")
      (by decide) (by decide) (by decide) (by decide) (by decide)).2.1

/-! ## C9: persisted state and resumability -/

lemma isPrefixOf_append_self : ∀ l b : List Char, l.isPrefixOf (l ++ b) = true
  | [], b => by cases b <;> rfl
  | x :: t, b => by simp [List.isPrefixOf, isPrefixOf_append_self t b]

lemma listContainsSub_middle (a pat b : List Char) :
    listContainsSub (a ++ (pat ++ b)) pat = true := by
  induction a with
  | nil =>
      cases pat with
      | nil => cases b <;> simp [listContainsSub]
      | cons x t =>
          simp only [List.nil_append, List.cons_append, listContainsSub]
          rw [Bool.or_eq_true]
          exact Or.inl (isPrefixOf_append_self (x :: t) b)
  | cons x xs ih =>
      simp [listContainsSub, ih]

lemma listContainsSub_self_append (pat b : List Char) :
    listContainsSub (pat ++ b) pat = true :=
  listContainsSub_middle [] pat b

lemma strContains_header_marker (opts : Options) (plan : String) :
    strContains (post_header opts ++ plan) PLAN_MARKER = true := by
  rw [strContains, post_header]
  simp only [String.data_append, List.append_assoc]
  exact listContainsSub_self_append _ _

/-- C9 counterexample: a concrete successful auto-mode run.  The item
reaches the terminal status `posted`, yet the effect trace holds no file
write whatsoever — no scratch marker file recording the terminal status
exists (the only effects are the generator call and the posted comment), so
no later run can read per-item state from the scratch directory. -/
theorem no_scratch_marker_file_cex :
    (process_issue ⟨true, false, none, false, false, false, 4, 600, 0, false⟩
        ⟨5, .ok ⟨some "T", some "b", []⟩, fun _ _ => .ok "the plan", fun p => .ok p, true⟩).1.status
      = "posted" ∧
    ((process_issue ⟨true, false, none, false, false, false, 4, 600, 0, false⟩
        ⟨5, .ok ⟨some "T", some "b", []⟩, fun _ _ => .ok "the plan", fun p => .ok p, true⟩).2.all
      fun e => !e.isFileWrite) = true := by
  decide

/-- C9 amended: the resumability contract is carried by the tracker, not by
scratch files: the comment posted for a completed item starts with the plan
marker, and a later run with `replan=false` that fetches comments including
that posted comment (with no rate-limit notice inside it, and no earlier
marker comment) skips the item with an empty effect trace — zero generator
invocations and no file writes. -/
theorem resume_via_posted_comment (opts opts2 : Options) (env2 : Env) (data2 : IssueData)
    (plan : String) (cs : List String)
    (hfetch : env2.fetch = Except.ok data2)
    (hcomments : data2.comments = cs ++ [post_header opts ++ plan])
    (hnomark : ∀ b ∈ cs, strContains b PLAN_MARKER = false)
    (hnolimit : strContains (post_header opts ++ plan) LIMIT_NOTICE = false)
    (hreplan : opts2.replan = false)
    (hbody : pyLen (bodyOf data2) ≤ MAX_BODY_SIZE) :
    strContains (post_header opts ++ plan) PLAN_MARKER = true ∧
    process_issue opts2 env2 = (⟨env2.issue, "skipped", none⟩, []) := by
  refine ⟨strContains_header_marker opts plan, ?_⟩
  apply process_issue_skip_of_scan opts2 env2 data2 hfetch hbody hreplan
  rw [hcomments]
  rw [scanComments_first_marker cs _ [] hnomark (strContains_header_marker opts plan)]
  rw [hnolimit]
  rfl

/-- Witness for C9 amended: after the first run posts the plan `"the plan"`
for issue 5, a second run fetching that comment skips the issue. -/
theorem resume_via_posted_comment_witness :
    process_issue ⟨true, false, none, false, false, false, 4, 600, 0, false⟩
        ⟨5, .ok ⟨some "T", some "b",
          [post_header ⟨true, false, none, false, false, false, 4, 600, 0, false⟩ ++ "the plan"]⟩,
          fun _ _ => .ok "x", fun p => .ok p, true⟩ =
      (⟨5, "skipped", none⟩, []) := by
  exact (resume_via_posted_comment
    ⟨true, false, none, false, false, false, 4, 600, 0, false⟩
    ⟨true, false, none, false, false, false, 4, 600, 0, false⟩
    ⟨5, .ok ⟨some "T", some "b",
      [post_header ⟨true, false, none, false, false, false, 4, 600, 0, false⟩ ++ "the plan"]⟩,
      fun _ _ => .ok "x", fun p => .ok p, true⟩
    ⟨some "T", some "b",
      [post_header ⟨true, false, none, false, false, false, 4, 600, 0, false⟩ ++ "the plan"]⟩
    "the plan" []
    rfl rfl (by simp) (by decide) rfl (by decide)).2

/-! ## C10: a replan reason implies replanning -/

/-- C10 counterexample: the CLI invocation `--replan-reason ''` supplies a
replan reason, yet the constructed `replan` flag is `false` — Python's
`bool("")` is falsy, so an empty-string reason does not enable replanning. -/
theorem replan_reason_empty_cex : mkReplan false (some "") = false := by decide

/-- C10 amended: supplying a NON-empty replan reason enables replanning even
without the replan flag: the constructed `Options.replan` is `true`, and the
header of any comment posted under these options carries the revision
marker `" (Revised)"`. -/
theorem replan_reason_forces_replan (flag : Bool) (s : String) (hs : s ≠ "") :
    mkReplan flag (some s) = true ∧
    ∀ (auto dry cleanup par : Bool) (mp tmo : Nat) (th : ℚ) (jo : Bool),
      strContains
        (post_header ⟨auto, mkReplan flag (some s), some s, dry, cleanup, par, mp, tmo, th, jo⟩)
        " (Revised)" = true := by
  have h1 : mkReplan flag (some s) = true := by
    simp [mkReplan, hs]
  refine ⟨h1, ?_⟩
  intro auto dry cleanup par mp tmo th jo
  rw [strContains, post_header]
  simp only [h1, if_true, String.data_append, List.append_assoc]
  exact listContainsSub_middle PLAN_MARKER.data _ _

/-- Witness for C10 amended at a concrete non-empty reason. -/
theorem replan_reason_forces_replan_witness :
    mkReplan false (some "Need to add error handling") = true ∧
    strContains
      (post_header ⟨true, mkReplan false (some "Need to add error handling"),
        some "Need to add error handling", false, false, false, 4, 600, 0, false⟩)
      " (Revised)" = true := by
  exact ⟨(replan_reason_forces_replan false "Need to add error handling" (by decide)).1,
    (replan_reason_forces_replan false "Need to add error handling" (by decide)).2
      true false false false 4 600 0 false⟩

end PlanIssues
